import Mathlib

/-!
# Verification of the helium-wallet transaction-construction core

A shallow embedding of the wallet's command layer: the transaction
variants the commands build (`src/bin/cmd/pay.rs`, `src/bin/cmd/htlc.rs`,
`src/bin/cmd/oui.rs`), the payer-resolution step, role-based signing, the
envelope wrapper, and each command's `run` control flow, including its
submission decisions.  Machine integers are modelled as `Nat` (none of the
verified paths exercises overflow), byte strings as `List Nat`, and the
fallible Rust `Result` as an explicit outcome type that also distinguishes
a panic (`unwrap` on an error) from a returned error.
-/

namespace HeliumWallet

/-- Byte strings (`Vec<u8>` in the source) as lists of naturals. -/
abbrev Bytes := List Nat

/-- A keypair: the wallet's public key identifier (`pubkey_bin`) and the
private half used for signing. -/
structure Keypair where
  pubkey : Bytes
  privkey : Bytes
deriving DecidableEq, Repr

/-! ## Transaction variants

Each structure lists exactly the fields the corresponding struct literal in
the source populates. -/

/-- One payment inside a `BlockchainTxnPaymentV2`
(`src/bin/cmd/pay.rs:42-46`). -/
structure Payment where
  payee : Bytes
  amount : Nat
deriving DecidableEq, Repr

/-- `BlockchainTxnPaymentV2` as constructed in `src/bin/cmd/pay.rs:48-54`. -/
structure BlockchainTxnPaymentV2 where
  fee : Nat
  payments : List Payment
  payer : Bytes
  nonce : Nat
  signature : Bytes
deriving DecidableEq, Repr

/-- `BlockchainTxnCreateHtlcV1` as constructed in
`src/bin/cmd/htlc.rs:82-92`. -/
structure BlockchainTxnCreateHtlcV1 where
  amount : Nat
  fee : Nat
  payee : Bytes
  payer : Bytes
  address : Bytes
  hashlock : Bytes
  timelock : Nat
  nonce : Nat
  signature : Bytes
deriving DecidableEq, Repr

/-- `BlockchainTxnRedeemHtlcV1` as constructed in
`src/bin/cmd/htlc.rs:154-160`; the struct literal has no nonce field. -/
structure BlockchainTxnRedeemHtlcV1 where
  fee : Nat
  payee : Bytes
  address : Bytes
  preimage : Bytes
  signature : Bytes
deriving DecidableEq, Repr

/-- `BlockchainTxnOuiV1` as constructed in `src/bin/cmd/oui.rs:96-112`;
the struct literal has no nonce field and two signature slots. -/
structure BlockchainTxnOuiV1 where
  addresses : List Bytes
  owner : Bytes
  payer : Bytes
  oui : Nat
  fee : Nat
  staking_fee : Nat
  owner_signature : Bytes
  payer_signature : Bytes
  requested_subnet_size : Nat
  filter : Bytes
deriving DecidableEq, Repr

/-- The tagged union of the four transaction kinds the commands build
(the `Txn` oneof of the protobuf envelope, restricted to the variants this
code constructs or matches on). -/
inductive Txn where
  | PaymentV2 : BlockchainTxnPaymentV2 → Txn
  | CreateHtlc : BlockchainTxnCreateHtlcV1 → Txn
  | RedeemHtlc : BlockchainTxnRedeemHtlcV1 → Txn
  | Oui : BlockchainTxnOuiV1 → Txn
deriving DecidableEq, Repr

/-- The envelope: `BlockchainTxn` holds an optional tagged transaction
(`envelope.txn` in `src/bin/cmd/oui.rs:138`). -/
structure BlockchainTxn where
  txn : Option Txn
deriving DecidableEq, Repr

/-! ## Common field accessors over the tagged union -/

/-- The fee field of each variant; total, since all four struct literals
populate `fee`. -/
def txnFee : Txn → Option Nat
  | .PaymentV2 t => some t.fee
  | .CreateHtlc t => some t.fee
  | .RedeemHtlc t => some t.fee
  | .Oui t => some t.fee

/-- The nonce field of each variant where the source struct literal has
one: `BlockchainTxnPaymentV2` (`pay.rs:52`) and `BlockchainTxnCreateHtlcV1`
(`htlc.rs:90`) carry a nonce; the `BlockchainTxnRedeemHtlcV1` and
`BlockchainTxnOuiV1` literals (`htlc.rs:154-160`, `oui.rs:96-112`) have no
such field. -/
def txnNonce : Txn → Option Nat
  | .PaymentV2 t => some t.nonce
  | .CreateHtlc t => some t.nonce
  | .RedeemHtlc _ => none
  | .Oui _ => none

/-- The signature slots of each variant, in declaration order. -/
def sigSlots : Txn → List Bytes
  | .PaymentV2 t => [t.signature]
  | .CreateHtlc t => [t.signature]
  | .RedeemHtlc t => [t.signature]
  | .Oui t => [t.owner_signature, t.payer_signature]

/-- Whether a variant is one of the two single-signer kinds that carry a
nonce in the source. -/
def hasNonceKind : Txn → Bool
  | .PaymentV2 _ => true
  | .CreateHtlc _ => true
  | .RedeemHtlc _ => false
  | .Oui _ => false

/-! ## External text codecs (models of the `bs58`, `base64` and `hex`
crates as used by the commands) -/

/-- Model of the checksummed base58 decode used by `PubKeyBin::from_b58`:
decoding succeeds exactly on nonempty strings over the base58 alphabet and
is abstracted to yield the character codes.  The repository's codec
(`keypair.rs`, absent from the provided sources) is specified in the spec
as failing on malformed text; only success/failure and determinism matter
to the claims below. -/
def b58Decode (s : String) : Option Bytes :=
  if s ≠ "" ∧ s.data.all (fun c =>
      c.isAlphanum ∧ !(c = '0' ∨ c = 'O' ∨ c = 'I' ∨ c = 'l')) then
    some (s.data.map Char.toNat)
  else
    none

/-- Model of `base64::decode` (external crate): succeeds exactly on
strings over the base64 alphabet, abstracted to yield the character
codes. -/
def base64Decode (s : String) : Option Bytes :=
  if s.data.all (fun c =>
      c.isAlphanum ∨ c = '+' ∨ c = '/' ∨ c = '=') then
    some (s.data.map Char.toNat)
  else
    none

/-- A hexadecimal digit. -/
def isHexDigit (c : Char) : Bool :=
  c.isDigit ∨ ('a' ≤ c ∧ c ≤ 'f') ∨ ('A' ≤ c ∧ c ≤ 'F')

/-- Numeric value of a hexadecimal digit. -/
def hexVal (c : Char) : Nat :=
  if c.isDigit then c.toNat - 48
  else if 'a' ≤ c ∧ c ≤ 'f' then c.toNat - 87
  else c.toNat - 55

/-- Pair up hex digits into bytes. -/
def hexPairs : List Char → Bytes
  | a :: b :: rest => (16 * hexVal a + hexVal b) :: hexPairs rest
  | _ => []

/-- Model of `hex::decode` (external crate): succeeds exactly on
even-length strings of hexadecimal digits. -/
def hexDecode (s : String) : Option Bytes :=
  if s.data.all isHexDigit ∧ s.length % 2 = 0 then
    some (hexPairs s.data)
  else
    none

/-- UTF-8 encoding of one character (the byte sequence Rust's
`String::into_bytes` produces for it). -/
def charUtf8 (c : Char) : Bytes :=
  let n := c.toNat
  if n < 128 then [n]
  else if n < 2048 then [192 + n / 64, 128 + n % 64]
  else if n < 65536 then
    [224 + n / 4096, 128 + (n / 64) % 64, 128 + n % 64]
  else
    [240 + n / 262144, 128 + (n / 4096) % 64, 128 + (n / 64) % 64,
      128 + n % 64]

/-- `String::into_bytes`: the UTF-8 bytes of a string. -/
def strUtf8 (s : String) : Bytes :=
  (s.data.map charUtf8).flatten

/-! ## Canonical encoding and signing

The `Sign`/`TxnEnvelope` traits live in the repository's `traits` module,
which is not among the provided sources; they are modelled from the spec. -/

/-- Length-prefixed field encoding used by the canonical encoders below. -/
def encodeField (b : Bytes) : Bytes := b.length :: b

/-- Modelled from the spec: §4.2 Canonical Encoder for
`BlockchainTxnPaymentV2` — all declared fields serialized in a fixed
order with the signature slot cleared (here: excluded). -/
def paymentCanonical (t : BlockchainTxnPaymentV2) : Bytes :=
  [t.fee] ++
    (t.payments.map (fun p => encodeField p.payee ++ [p.amount])).flatten ++
    encodeField t.payer ++ [t.nonce]

/-- Modelled from the spec: §4.2 Canonical Encoder for
`BlockchainTxnCreateHtlcV1`, signature slot cleared. -/
def createHtlcCanonical (t : BlockchainTxnCreateHtlcV1) : Bytes :=
  [t.amount, t.fee] ++ encodeField t.payee ++ encodeField t.payer ++
    encodeField t.address ++ encodeField t.hashlock ++
    [t.timelock, t.nonce]

/-- Modelled from the spec: §4.2 Canonical Encoder for
`BlockchainTxnRedeemHtlcV1`, signature slot cleared. -/
def redeemHtlcCanonical (t : BlockchainTxnRedeemHtlcV1) : Bytes :=
  [t.fee] ++ encodeField t.payee ++ encodeField t.address ++
    encodeField t.preimage

/-- Modelled from the spec: §4.2 Canonical Encoder for
`BlockchainTxnOuiV1`, both signature slots cleared. -/
def ouiCanonical (t : BlockchainTxnOuiV1) : Bytes :=
  (t.addresses.map encodeField).flatten ++ encodeField t.owner ++
    encodeField t.payer ++
    [t.oui, t.fee, t.staking_fee, t.requested_subnet_size] ++
    encodeField t.filter

/-- Modelled from the spec: §4.3 Signer — the signature over the canonical
bytes produced with the private half of the keypair.  The signature
function itself is external cryptography; it is abstracted to an
executable function of the private key and the payload that always
produces a nonempty byte string. -/
def mkSig (kp : Keypair) (payload : Bytes) : Bytes :=
  0 :: (kp.privkey ++ payload)

/-- The signing roles (`Signer::Owner`, `Signer::Payer` in the source). -/
inductive SignerRole where
  | Owner : SignerRole
  | Payer : SignerRole
deriving DecidableEq, Repr

/-- Modelled from the spec: §4.3 `sign` on the three single-signer kinds'
single slot — `BlockchainTxnPaymentV2`. -/
def paymentSign (kp : Keypair) (t : BlockchainTxnPaymentV2) :
    BlockchainTxnPaymentV2 :=
  { t with signature := mkSig kp (paymentCanonical t) }

/-- Modelled from the spec: §4.3 `sign` for `BlockchainTxnCreateHtlcV1`. -/
def createHtlcSign (kp : Keypair) (t : BlockchainTxnCreateHtlcV1) :
    BlockchainTxnCreateHtlcV1 :=
  { t with signature := mkSig kp (createHtlcCanonical t) }

/-- Modelled from the spec: §4.3 `sign` for `BlockchainTxnRedeemHtlcV1`. -/
def redeemHtlcSign (kp : Keypair) (t : BlockchainTxnRedeemHtlcV1) :
    BlockchainTxnRedeemHtlcV1 :=
  { t with signature := mkSig kp (redeemHtlcCanonical t) }

/-- Modelled from the spec: §4.3 `sign` for `BlockchainTxnOuiV1` — the
requested role's slot is populated, the other left untouched; both roles
sign the same canonical bytes. -/
def ouiSign (kp : Keypair) (role : SignerRole) (t : BlockchainTxnOuiV1) :
    BlockchainTxnOuiV1 :=
  match role with
  | .Owner => { t with owner_signature := mkSig kp (ouiCanonical t) }
  | .Payer => { t with payer_signature := mkSig kp (ouiCanonical t) }

/-- Modelled from the spec: §4.4 `wrap` (`in_envelope` in the source) for
a payment — total, signatures not required. -/
def paymentInEnvelope (t : BlockchainTxnPaymentV2) : BlockchainTxn :=
  ⟨some (.PaymentV2 t)⟩

/-- Modelled from the spec: §4.4 `wrap` for an HTLC creation. -/
def createHtlcInEnvelope (t : BlockchainTxnCreateHtlcV1) : BlockchainTxn :=
  ⟨some (.CreateHtlc t)⟩

/-- Modelled from the spec: §4.4 `wrap` for an HTLC redemption. -/
def redeemHtlcInEnvelope (t : BlockchainTxnRedeemHtlcV1) : BlockchainTxn :=
  ⟨some (.RedeemHtlc t)⟩

/-- Modelled from the spec: §4.4 `wrap` for an OUI allocation. -/
def ouiInEnvelope (t : BlockchainTxnOuiV1) : BlockchainTxn :=
  ⟨some (.Oui t)⟩

/-! ## External ledger API and payer resolution -/

/-- The pending-transaction status returned by the external ledger
collaborator on submission. -/
structure PendingTxnStatus where
  hash : String
deriving DecidableEq, Repr

/-- Model of the external `Client::submit_txn` response payload (the
response contents carry no information the claims depend on). -/
def apiSubmitTxn (_e : BlockchainTxn) : PendingTxnStatus :=
  ⟨"pending"⟩

/-- Modelled from the spec: §4.5 Payer Resolution (`get_payer` in the
repository's `cmd` module, not among the provided sources): no explicit
payer → unresolved (`None`, the txn's payer field is left empty); the
literal `"staking"` → the staking service's address; any other literal →
that address, decoded, failing on malformed text. -/
def get_payer (staking_key : Bytes) (payer : Option String) :
    Except String (Option Bytes) :=
  match payer with
  | none => .ok none
  | some s =>
    if s = "staking" then .ok (some staking_key)
    else
      match b58Decode s with
      | some b => .ok (some b)
      | none => .error ("invalid payer address `" ++ s ++ "`")

/-! ## Command runs

Each `run` is embedded as a function of its parsed command arguments plus
the values it obtains from external collaborators (the decrypted keypair,
the account's speculative nonce, the staking service's address, the
freshly generated contract keypair).  The result records the Rust
function's outcome — `ok` with the built transaction, its envelope and the
reported submission status, a returned `err`, or a `panicked` process
abort — together with the trace of `submit_txn` calls made to the ledger
API. -/

/-- Outcome of one command run: a returned value, a returned error, or a
panic (process abort that never returns to the caller). -/
inductive Outcome (α : Type) where
  | ok : α → Outcome α
  | err : String → Outcome α
  | panicked : String → Outcome α
deriving DecidableEq, Repr

/-- A run's outcome (transaction, envelope, reported status) together
with the trace of envelopes submitted to the ledger API. -/
structure RunResult (τ : Type) where
  outcome : Outcome (τ × BlockchainTxn × Option PendingTxnStatus)
  submits : List BlockchainTxn

/-- One HNT amount held as its integer base-unit (bones) value;
`to_bones` is field access. -/
structure Hnt where
  bones : Nat
deriving DecidableEq, Repr

/-- One `--payee` argument after parsing: the address text and the HNT
amount (`Payee` struct in `src/bin/cmd/pay.rs:122-126`). -/
structure PayeeArg where
  address : String
  amount : Hnt
deriving DecidableEq, Repr

/-- The parsed `pay` command (`src/bin/cmd/pay.rs:18-26`). -/
structure PayCmd where
  payees : List PayeeArg
  commit : Bool
deriving DecidableEq, Repr

/-- The payments list built in `src/bin/cmd/pay.rs:38-47`: each payee
address is base58-decoded (first failure aborts the whole run, as with
`collect` over `Result`) and each amount converted to bones. -/
def mkPayments : List PayeeArg → Except String (List Payment)
  | [] => .ok []
  | p :: rest =>
    match b58Decode p.address with
    | none => .error ("invalid address `" ++ p.address ++ "`")
    | some b =>
      match mkPayments rest with
      | .error e => .error e
      | .ok ps => .ok (⟨b, p.amount.bones⟩ :: ps)

/-- The `BlockchainTxnPaymentV2` struct literal of
`src/bin/cmd/pay.rs:48-54`: fee 0, nonce `speculative_nonce + 1`,
signature slot empty. -/
def paymentBuild (payments : List Payment) (keypair : Keypair)
    (speculative_nonce : Nat) : BlockchainTxnPaymentV2 :=
  { fee := 0
    payments := payments
    payer := keypair.pubkey
    nonce := speculative_nonce + 1
    signature := [] }

/-- `Cmd::run` of the `pay` command (`src/bin/cmd/pay.rs:29-64`):
build the payments, construct `BlockchainTxnPaymentV2` with fee 0 and
nonce `speculative_nonce + 1`, sign as Owner, wrap, and submit exactly
when `--commit` was given. -/
def payRun (cmd : PayCmd) (keypair : Keypair) (speculative_nonce : Nat) :
    RunResult BlockchainTxnPaymentV2 :=
  match mkPayments cmd.payees with
  | .error e => ⟨.err e, []⟩
  | .ok payments =>
    let signed := paymentSign keypair
      (paymentBuild payments keypair speculative_nonce)
    let envelope := paymentInEnvelope signed
    if cmd.commit then
      ⟨.ok (signed, envelope, some (apiSubmitTxn envelope)), [envelope]⟩
    else
      ⟨.ok (signed, envelope, none), []⟩

/-- The parsed `htlc create` command (`src/bin/cmd/htlc.rs:23-42`). -/
structure HtlcCreateCmd where
  payee : String
  hnt : Hnt
  hashlock : String
  timelock : Nat
  commit : Bool
deriving DecidableEq, Repr

/-- The `BlockchainTxnCreateHtlcV1` struct literal of
`src/bin/cmd/htlc.rs:82-92`: fee 0, nonce `speculative_nonce + 1`,
signature slot empty. -/
def createHtlcBuild (cmd : HtlcCreateCmd) (payeeBin hashlockBytes : Bytes)
    (keypair : Keypair) (speculative_nonce : Nat)
    (contract_address : Bytes) : BlockchainTxnCreateHtlcV1 :=
  { amount := cmd.hnt.bones
    fee := 0
    payee := payeeBin
    payer := keypair.pubkey
    address := contract_address
    hashlock := hashlockBytes
    timelock := cmd.timelock
    nonce := speculative_nonce + 1
    signature := [] }

/-- `Create::run` of the `htlc` command (`src/bin/cmd/htlc.rs:73-102`).
The struct literal's fields are evaluated in source order: the payee is
base58-decoded (`?` propagates failure), then the hashlock is hex-decoded
with `.unwrap()` — a decode failure there panics instead of returning.
`contract_address` stands for the freshly generated contract keypair's
public key. -/
def htlcCreateRun (cmd : HtlcCreateCmd) (keypair : Keypair)
    (speculative_nonce : Nat) (contract_address : Bytes) :
    RunResult BlockchainTxnCreateHtlcV1 :=
  match b58Decode cmd.payee with
  | none => ⟨.err ("invalid address `" ++ cmd.payee ++ "`"), []⟩
  | some payeeBin =>
    match hexDecode cmd.hashlock with
    | none =>
      ⟨.panicked "called `Result::unwrap()` on an `Err` value", []⟩
    | some hashlockBytes =>
      let signed := createHtlcSign keypair
        (createHtlcBuild cmd payeeBin hashlockBytes keypair
          speculative_nonce contract_address)
      let envelope := createHtlcInEnvelope signed
      if cmd.commit then
        ⟨.ok (signed, envelope, some (apiSubmitTxn envelope)), [envelope]⟩
      else
        ⟨.ok (signed, envelope, none), []⟩

/-- The parsed `htlc redeem` command (`src/bin/cmd/htlc.rs:44-61`). -/
structure HtlcRedeemCmd where
  address : String
  preimage : String
  hash : Bool
  commit : Bool
deriving DecidableEq, Repr

/-- The `BlockchainTxnRedeemHtlcV1` struct literal of
`src/bin/cmd/htlc.rs:154-160`: fee 0, payee = wallet key, preimage = the
argument's UTF-8 bytes, signature slot empty, no nonce field. -/
def redeemHtlcBuild (cmd : HtlcRedeemCmd) (addr : Bytes)
    (keypair : Keypair) : BlockchainTxnRedeemHtlcV1 :=
  { fee := 0
    payee := keypair.pubkey
    address := addr
    preimage := strUtf8 cmd.preimage
    signature := [] }

/-- `Redeem::run` of the `htlc` command (`src/bin/cmd/htlc.rs:148-171`):
fee 0, payee = wallet key, contract address base58-decoded, preimage =
the argument's UTF-8 bytes (`self.preimage.clone().into_bytes()`), no
nonce, no inspection of the preimage beyond the byte conversion; sign as
Owner, wrap, submit exactly when `--commit` was given. -/
def htlcRedeemRun (cmd : HtlcRedeemCmd) (keypair : Keypair) :
    RunResult BlockchainTxnRedeemHtlcV1 :=
  match b58Decode cmd.address with
  | none => ⟨.err ("invalid address `" ++ cmd.address ++ "`"), []⟩
  | some addr =>
    let signed := redeemHtlcSign keypair (redeemHtlcBuild cmd addr keypair)
    let envelope := redeemHtlcInEnvelope signed
    if cmd.commit then
      ⟨.ok (signed, envelope, some (apiSubmitTxn envelope)), [envelope]⟩
    else
      ⟨.ok (signed, envelope, none), []⟩

/-- The parsed `oui create` command (`src/bin/cmd/oui.rs:24-55`); the
router addresses arrive already decoded by the argument parser. -/
structure OuiCreateCmd where
  addresses : List Bytes
  filter : String
  oui : Nat
  subnet_size : Nat
  payer : Option String
  commit : Bool
deriving DecidableEq, Repr

/-- The `BlockchainTxnOuiV1` struct literal of `src/bin/cmd/oui.rs:96-112`:
fee 0, staking_fee 1, both signature slots empty, the payer field set to
the resolved payer's bytes or empty when unresolved
(`payer.map_or(vec![], ...)`), `requested_subnet_size` taken verbatim
from the argument, no nonce field. -/
def ouiBuild (cmd : OuiCreateCmd) (keypair : Keypair)
    (payer : Option Bytes) (filterBytes : Bytes) : BlockchainTxnOuiV1 :=
  { addresses := cmd.addresses
    owner := keypair.pubkey
    payer := payer.getD []
    oui := cmd.oui
    fee := 0
    staking_fee := 1
    owner_signature := []
    payer_signature := []
    requested_subnet_size := cmd.subnet_size
    filter := filterBytes }

/-- `Create::run` of the `oui` command (`src/bin/cmd/oui.rs:83-132`):
resolve the payer, build `BlockchainTxnOuiV1` (fee 0, staking_fee 1, both
signature slots empty, `requested_subnet_size` taken verbatim from the
argument — the body contains no subnet-size check), sign as Owner, wrap;
then submit only when the resolved payer is the wallet itself or
unresolved AND `--commit` was given, otherwise display without
submitting. -/
def ouiCreateRun (cmd : OuiCreateCmd) (keypair : Keypair)
    (staking_key : Bytes) : RunResult BlockchainTxnOuiV1 :=
  match get_payer staking_key cmd.payer with
  | .error e => ⟨.err e, []⟩
  | .ok payer =>
    match base64Decode cmd.filter with
    | none => ⟨.err ("invalid filter `" ++ cmd.filter ++ "`"), []⟩
    | some filterBytes =>
      let signed := ouiSign keypair .Owner
        (ouiBuild cmd keypair payer filterBytes)
      let envelope := ouiInEnvelope signed
      if payer = some keypair.pubkey ∨ payer = none then
        if cmd.commit then
          ⟨.ok (signed, envelope, some (apiSubmitTxn envelope)), [envelope]⟩
        else
          ⟨.ok (signed, envelope, none), []⟩
      else
        ⟨.ok (signed, envelope, none), []⟩

/-- `Submit::run` of the `oui` command (`src/bin/cmd/oui.rs:136-149`),
taken from the already base64-decoded envelope: proceed only when the
envelope's discriminant is the OUI kind, submitting exactly when
`--commit` was given; any other kind returns the error
`Invalid OUI transaction` without touching the API. -/
def ouiSubmitRun (envelope : BlockchainTxn) (commit : Bool) :
    RunResult BlockchainTxnOuiV1 :=
  match envelope.txn with
  | some (.Oui t) =>
    if commit then
      ⟨.ok (t, envelope, some (apiSubmitTxn envelope)), [envelope]⟩
    else
      ⟨.ok (t, envelope, none), []⟩
  | _ => ⟨.err "Invalid OUI transaction", []⟩

/-! ## Parsing a `--payee` argument -/

/-- `str::find` for one character: the index of its first occurrence. -/
def findChar (c : Char) : List Char → Option Nat
  | [] => none
  | a :: rest =>
    if a = c then some 0 else (findChar c rest).map (· + 1)

/-- Value of a decimal digit string. -/
def decDigitsVal (l : List Char) : Nat :=
  l.foldl (fun a c => a * 10 + (c.toNat - 48)) 0

/-- Modelled from the spec: §6 Amount text form (the `Hnt` parser of the
external helium-api crate) — a decimal with at most 8 fractional digits,
converted exactly to bones (scale 10^8); non-numeric or over-precision
text is rejected. -/
def hntFromStr (s : String) : Option Hnt :=
  let cs := s.data
  match findChar '.' cs with
  | none =>
    if cs ≠ [] ∧ cs.all Char.isDigit then
      some ⟨decDigitsVal cs * 100000000⟩
    else none
  | some pos =>
    let intPart := cs.take pos
    let fracPart := cs.drop (pos + 1)
    if intPart ≠ [] ∧ intPart.all Char.isDigit ∧ fracPart ≠ [] ∧
        fracPart.all Char.isDigit ∧ fracPart.length ≤ 8 then
      some ⟨decDigitsVal intPart * 100000000 +
        decDigitsVal fracPart * 10 ^ (8 - fracPart.length)⟩
    else none

/-- `Payee::from_str` (`src/bin/cmd/pay.rs:131-139`): find the first `=`;
with none, fail with a message quoting the whole input; otherwise the
address is the text before that `=` and the amount is parsed from the
text after it. -/
def payeeFromStr (s : String) : Except String PayeeArg :=
  match findChar '=' s.data with
  | none =>
    .error ("invalid KEY=value: missing `=`  in `" ++ s ++ "`")
  | some pos =>
    match hntFromStr (String.mk (s.data.drop (pos + 1))) with
    | none => .error ("invalid amount in `" ++ s ++ "`")
    | some amt => .ok ⟨String.mk (s.data.take pos), amt⟩

/-! ## Observers used by the theorems -/

/-- Whether an envelope's discriminant is the OUI kind. -/
def envIsOui (e : BlockchainTxn) : Bool :=
  match e.txn with
  | some (.Oui _) => true
  | _ => false

/-- Whether a run returned an error to the caller. -/
def runErrored {τ : Type} (r : RunResult τ) : Bool :=
  match r.outcome with
  | .err _ => true
  | _ => false

/-- Whether an OUI-create run reported a submission status (local
submission) while its transaction's payer signature slot is empty and the
owner slot populated. -/
def ouiLocalSubmitMissingPayerSig (r : RunResult BlockchainTxnOuiV1) :
    Bool :=
  match r.outcome with
  | .ok (t, _, some _) =>
    !t.owner_signature.isEmpty && t.payer_signature.isEmpty
  | _ => false

/-- Whether a concrete OUI-create run with the given requested subnet size
succeeds and passes that size through verbatim into the signed
transaction. -/
def ouiAcceptsSubnet (n : Nat) : Bool :=
  match (ouiCreateRun ⟨[], "", 1, n, none, false⟩ ⟨[1], [2]⟩ [9]).outcome with
  | .ok (t, _, _) => t.requested_subnet_size == n
  | _ => false

/-! ## Helper lemmas -/

theorem mkSig_ne_nil (kp : Keypair) (payload : Bytes) :
    mkSig kp payload ≠ [] := by
  simp [mkSig]

theorem payRun_resolved (cmd : PayCmd) (kp : Keypair) (n : Nat)
    (ps : List Payment) (h : mkPayments cmd.payees = .ok ps) :
    payRun cmd kp n =
      ⟨.ok (paymentSign kp (paymentBuild ps kp n),
            paymentInEnvelope (paymentSign kp (paymentBuild ps kp n)),
            if cmd.commit then
              some (apiSubmitTxn
                (paymentInEnvelope (paymentSign kp (paymentBuild ps kp n))))
            else none),
        if cmd.commit then
          [paymentInEnvelope (paymentSign kp (paymentBuild ps kp n))]
        else []⟩ := by
  unfold payRun
  rw [h]
  by_cases hc : cmd.commit <;> simp [hc]

theorem htlcRedeemRun_resolved (cmd : HtlcRedeemCmd) (kp : Keypair)
    (addr : Bytes) (h : b58Decode cmd.address = some addr) :
    htlcRedeemRun cmd kp =
      ⟨.ok (redeemHtlcSign kp (redeemHtlcBuild cmd addr kp),
            redeemHtlcInEnvelope (redeemHtlcSign kp (redeemHtlcBuild cmd addr kp)),
            if cmd.commit then
              some (apiSubmitTxn (redeemHtlcInEnvelope
                (redeemHtlcSign kp (redeemHtlcBuild cmd addr kp))))
            else none),
        if cmd.commit then
          [redeemHtlcInEnvelope (redeemHtlcSign kp (redeemHtlcBuild cmd addr kp))]
        else []⟩ := by
  unfold htlcRedeemRun
  rw [h]
  by_cases hc : cmd.commit <;> simp [hc]

theorem htlcCreateRun_resolved (cmd : HtlcCreateCmd) (kp : Keypair)
    (n : Nat) (a : Bytes) (payeeBin hashlockBytes : Bytes)
    (hp : b58Decode cmd.payee = some payeeBin)
    (hh : hexDecode cmd.hashlock = some hashlockBytes) :
    htlcCreateRun cmd kp n a =
      ⟨.ok (createHtlcSign kp (createHtlcBuild cmd payeeBin hashlockBytes kp n a),
            createHtlcInEnvelope
              (createHtlcSign kp (createHtlcBuild cmd payeeBin hashlockBytes kp n a)),
            if cmd.commit then
              some (apiSubmitTxn (createHtlcInEnvelope
                (createHtlcSign kp (createHtlcBuild cmd payeeBin hashlockBytes kp n a))))
            else none),
        if cmd.commit then
          [createHtlcInEnvelope
            (createHtlcSign kp (createHtlcBuild cmd payeeBin hashlockBytes kp n a))]
        else []⟩ := by
  unfold htlcCreateRun
  rw [hp, hh]
  by_cases hc : cmd.commit <;> simp [hc]

theorem ouiCreateRun_resolved (cmd : OuiCreateCmd) (kp : Keypair)
    (sk : Bytes) (p : Option Bytes) (f : Bytes)
    (hp : get_payer sk cmd.payer = .ok p)
    (hf : base64Decode cmd.filter = some f) :
    ouiCreateRun cmd kp sk =
      ⟨.ok (ouiSign kp .Owner (ouiBuild cmd kp p f),
            ouiInEnvelope (ouiSign kp .Owner (ouiBuild cmd kp p f)),
            if (p = some kp.pubkey ∨ p = none) ∧ cmd.commit then
              some (apiSubmitTxn
                (ouiInEnvelope (ouiSign kp .Owner (ouiBuild cmd kp p f))))
            else none),
        if (p = some kp.pubkey ∨ p = none) ∧ cmd.commit then
          [ouiInEnvelope (ouiSign kp .Owner (ouiBuild cmd kp p f))]
        else []⟩ := by
  unfold ouiCreateRun
  rw [hp, hf]
  by_cases h1 : p = some kp.pubkey ∨ p = none
  · by_cases h2 : cmd.commit <;> simp [h1, h2]
  · simp [h1]

/-! ## Claim theorems -/

/-- C3: the claim says OUI creation rejects a requested subnet size that
is not a power of two in [8, 65536] with a `ValidationError`; the code
performs no such check — concrete runs with the claim's rejected sizes 0,
7, 100 and 65537 all build, sign and report the transaction successfully,
the offending size passed through verbatim. -/
theorem oui_create_subnet_size_not_validated :
    ouiAcceptsSubnet 0 = true ∧ ouiAcceptsSubnet 7 = true ∧
    ouiAcceptsSubnet 100 = true ∧ ouiAcceptsSubnet 65537 = true := by
  decide

/-- C5: the claim says a non-hex hashlock is returned to the caller as a
typed `EncodingError`; the code instead calls `.unwrap()` on the hex
decode, so a run with the invalid hashlock text `zz` panics — it neither
returns an error value nor signs or submits anything. -/
theorem htlc_create_bad_hashlock_panics :
    htlcCreateRun ⟨"abc", ⟨1⟩, "zz", 0, true⟩ ⟨[1], [2]⟩ 0 [3] =
      ⟨.panicked "called `Result::unwrap()` on an `Err` value", []⟩ := by
  rfl

/-- C6 counterexample: the claim says all four transaction variants carry
a nonce in addition to fee and signature slots, but the
`BlockchainTxnRedeemHtlcV1` and `BlockchainTxnOuiV1` struct literals the
commands build have no nonce field at all. -/
theorem redeem_and_oui_carry_no_nonce :
    txnNonce (.RedeemHtlc ⟨0, [], [], [], []⟩) = none ∧
    txnNonce (.Oui ⟨[], [], [], 0, 0, 0, [], [], 0, []⟩) = none := by
  decide

/-- C6 (amended): every one of the four transaction variants carries the
common fee field and at least one signature slot; the nonce is carried
only by the Payment and CreateHTLC variants — the RedeemHTLC and
OUIAllocation structures have no nonce field. -/
theorem txn_variant_common_fields (v : Txn) :
    (txnFee v).isSome = true ∧
    (txnNonce v).isSome = hasNonceKind v ∧
    1 ≤ (sigSlots v).length := by
  cases v <;> simp [txnFee, txnNonce, hasNonceKind, sigSlots]

/-- C1: whenever the resolved payer of an OUI creation is some address
other than the wallet's own key (the staking service or a third party),
the run reports no submission status, makes no submission call to the
ledger API — whatever the `--commit` flag says — and the produced
envelope wraps a transaction whose Owner signature slot is populated and
whose Payer signature slot is empty. -/
theorem oui_create_foreign_payer_owner_only (cmd : OuiCreateCmd)
    (kp : Keypair) (sk : Bytes) (p f : Bytes)
    (hp : get_payer sk cmd.payer = .ok (some p))
    (hw : p ≠ kp.pubkey)
    (hf : base64Decode cmd.filter = some f) :
    ∃ t, (ouiCreateRun cmd kp sk).outcome = .ok (t, ouiInEnvelope t, none) ∧
      (ouiCreateRun cmd kp sk).submits = [] ∧
      t.owner_signature ≠ [] ∧ t.payer_signature = [] := by
  rw [ouiCreateRun_resolved cmd kp sk (some p) f hp hf]
  have hcond :
      ¬ (((some p : Option Bytes) = some kp.pubkey ∨
          (some p : Option Bytes) = none) ∧ cmd.commit) := by
    rintro ⟨h1 | h1, -⟩
    · exact hw (Option.some.inj h1)
    · exact Option.noConfusion h1
  refine ⟨ouiSign kp .Owner (ouiBuild cmd kp (some p) f), ?_, ?_, ?_, ?_⟩
  · simp [hcond]
    exact fun h => absurd h hw
  · simp [hcond]
    exact fun h => absurd h hw
  · simp [ouiSign, mkSig]
  · simp [ouiSign, ouiBuild]

/-- C1 witness: a concrete OUI creation whose explicit payer is the
staking service (and differs from the wallet key), run with `--commit`
set, still submits nothing and produces an owner-only-signed envelope. -/
theorem oui_create_foreign_payer_owner_only_witness :
    ∃ t, (ouiCreateRun ⟨[], "", 1, 8, some "staking", true⟩
            ⟨[1], [2]⟩ [9]).outcome = .ok (t, ouiInEnvelope t, none) ∧
      (ouiCreateRun ⟨[], "", 1, 8, some "staking", true⟩
        ⟨[1], [2]⟩ [9]).submits = [] ∧
      t.owner_signature ≠ [] ∧ t.payer_signature = [] :=
  oui_create_foreign_payer_owner_only ⟨[], "", 1, 8, some "staking", true⟩
    ⟨[1], [2]⟩ [9] [9] [] (by rfl) (by decide) (by rfl)

/-- C2 counterexample: the claim says that when the resolved payer equals
the wallet, the keypair signs both the Owner and the Payer role, so the
locally submitted envelope carries both signatures; at a concrete input
whose explicit payer address resolves to the wallet's own key, the run is
locally submitted, yet the payer signature slot of its transaction is
empty (only the Owner role was ever signed). -/
theorem oui_create_self_payer_payer_slot_empty :
    ouiLocalSubmitMissingPayerSig
      (ouiCreateRun ⟨[], "", 1, 8, some "ab", true⟩ ⟨[97, 98], [2]⟩ [9]) =
      true := by
  decide

/-- C2 (amended): for every OUI creation whose resolved payer equals the
wallet's own key, local submission is legitimate — the run submits to the
ledger API exactly when `--commit` is set — but only the Owner role is
signed: the produced envelope's Owner signature slot is populated and its
Payer signature slot remains empty. -/
theorem oui_create_self_payer_owner_only (cmd : OuiCreateCmd)
    (kp : Keypair) (sk : Bytes) (f : Bytes)
    (hp : get_payer sk cmd.payer = .ok (some kp.pubkey))
    (hf : base64Decode cmd.filter = some f) :
    ∃ t, (ouiCreateRun cmd kp sk).outcome =
        .ok (t, ouiInEnvelope t,
          if cmd.commit then some (apiSubmitTxn (ouiInEnvelope t)) else none) ∧
      (ouiCreateRun cmd kp sk).submits =
        (if cmd.commit then [ouiInEnvelope t] else []) ∧
      t.owner_signature ≠ [] ∧ t.payer_signature = [] := by
  rw [ouiCreateRun_resolved cmd kp sk (some kp.pubkey) f hp hf]
  have hcond : ((some kp.pubkey : Option Bytes) = some kp.pubkey ∨
      (some kp.pubkey : Option Bytes) = none) := Or.inl rfl
  refine ⟨ouiSign kp .Owner (ouiBuild cmd kp (some kp.pubkey) f), ?_, ?_, ?_, ?_⟩
  · by_cases hc : cmd.commit <;> simp [hcond, hc]
  · by_cases hc : cmd.commit <;> simp [hcond, hc]
  · simp [ouiSign, mkSig]
  · simp [ouiSign, ouiBuild]

/-- C2 witness: a concrete OUI creation whose explicit payer address
decodes to the wallet's own key, with `--commit` set, is submitted while
carrying only the Owner signature. -/
theorem oui_create_self_payer_owner_only_witness :
    ∃ t, (ouiCreateRun ⟨[], "", 1, 8, some "ab", true⟩
            ⟨[97, 98], [2]⟩ [9]).outcome =
        .ok (t, ouiInEnvelope t,
          if true then some (apiSubmitTxn (ouiInEnvelope t)) else none) ∧
      (ouiCreateRun ⟨[], "", 1, 8, some "ab", true⟩
        ⟨[97, 98], [2]⟩ [9]).submits =
        (if true then [ouiInEnvelope t] else []) ∧
      t.owner_signature ≠ [] ∧ t.payer_signature = [] :=
  oui_create_self_payer_owner_only ⟨[], "", 1, 8, some "ab", true⟩
    ⟨[97, 98], [2]⟩ [9] [] (by rfl) (by rfl)

/-- C4: re-submitting an envelope through the OUI submit command fails
with the wrong-transaction-kind error exactly when the envelope's
discriminant is not the OUI kind, and in that failure case nothing at all
is submitted to the ledger API. -/
theorem oui_submit_wrong_kind_check (env : BlockchainTxn) (commit : Bool) :
    (runErrored (ouiSubmitRun env commit) = true ↔ envIsOui env = false) ∧
    (envIsOui env = false →
      ouiSubmitRun env commit = ⟨.err "Invalid OUI transaction", []⟩) := by
  obtain ⟨t⟩ := env
  constructor
  · cases t with
    | none => simp [ouiSubmitRun, envIsOui, runErrored]
    | some x =>
      cases x <;> cases commit <;>
        simp [ouiSubmitRun, envIsOui, runErrored]
  · intro h
    cases t with
    | none => simp [ouiSubmitRun]
    | some x =>
      cases x <;> simp_all [ouiSubmitRun, envIsOui]

/-- C4 witness: a concrete envelope wrapping a payment, re-submitted as an
OUI transaction with `--commit` set, returns the wrong-kind error and
submits nothing. -/
theorem oui_submit_wrong_kind_check_witness :
    ouiSubmitRun ⟨some (.PaymentV2 ⟨0, [], [], 0, []⟩)⟩ true =
      ⟨.err "Invalid OUI transaction", []⟩ :=
  (oui_submit_wrong_kind_check ⟨some (.PaymentV2 ⟨0, [], [], 0, []⟩)⟩ true).2
    (by decide)

theorem findChar_eq_none (c : Char) (l : List Char) :
    findChar c l = none ↔ c ∉ l := by
  induction l with
  | nil => simp [findChar]
  | cons a rest ih =>
    by_cases h : a = c
    · subst h
      simp [findChar]
    · simp [findChar, h, Option.map_eq_none', ih, Ne.symm h]

theorem findChar_some_split (c : Char) (l : List Char) (pos : Nat)
    (h : findChar c l = some pos) :
    l.take pos ++ c :: l.drop (pos + 1) = l ∧ c ∉ l.take pos := by
  induction l generalizing pos with
  | nil => simp [findChar] at h
  | cons a rest ih =>
    by_cases ha : a = c
    · subst ha
      simp [findChar] at h
      subst h
      simp
    · simp [findChar, ha] at h
      obtain ⟨q, hq, hpos⟩ := h
      subst hpos
      obtain ⟨h1, h2⟩ := ih q hq
      refine ⟨?_, ?_⟩
      · simpa using h1
      · simp [h2, Ne.symm ha]

/-- C7: parsing a payee argument fails when the string contains no `=`,
with an error message that quotes the offending input verbatim; when an
`=` is present, the string splits at its first occurrence — the address
is the text before it (which itself contains no `=`) and, whenever
parsing succeeds, the amount was parsed from the text after it. -/
theorem payee_from_str_split (s : String) :
    ('=' ∉ s.data →
      payeeFromStr s =
        .error ("invalid KEY=value: missing `=`  in `" ++ s ++ "`") ∧
      ∃ a b, payeeFromStr s = .error (a ++ s ++ b)) ∧
    ('=' ∈ s.data → ∃ pre post,
      s.data = pre ++ '=' :: post ∧ '=' ∉ pre ∧
      ∀ p, payeeFromStr s = .ok p →
        p.address.data = pre ∧
        hntFromStr (String.mk post) = some p.amount) := by
  constructor
  · intro h
    have hn : findChar '=' s.data = none := (findChar_eq_none _ _).mpr h
    have he : payeeFromStr s =
        .error ("invalid KEY=value: missing `=`  in `" ++ s ++ "`") := by
      unfold payeeFromStr
      rw [hn]
    exact ⟨he, "invalid KEY=value: missing `=`  in `", "`", he⟩
  · intro h
    obtain ⟨pos, hpos⟩ : ∃ pos, findChar '=' s.data = some pos := by
      cases hf : findChar '=' s.data with
      | none => exact absurd ((findChar_eq_none _ _).mp hf) (by simpa using h)
      | some q => exact ⟨q, rfl⟩
    obtain ⟨hsplit, hnotin⟩ := findChar_some_split '=' s.data pos hpos
    refine ⟨s.data.take pos, s.data.drop (pos + 1), hsplit.symm, hnotin, ?_⟩
    intro p hp
    have hps : payeeFromStr s =
        match hntFromStr (String.mk (s.data.drop (pos + 1))) with
        | none => .error ("invalid amount in `" ++ s ++ "`")
        | some amt => .ok ⟨String.mk (s.data.take pos), amt⟩ := by
      unfold payeeFromStr
      rw [hpos]
    cases hh : hntFromStr (String.mk (s.data.drop (pos + 1))) with
    | none =>
      rw [hps, hh] at hp
      exact absurd hp (by simp)
    | some amt =>
      rw [hps, hh] at hp
      cases hp
      exact ⟨rfl, rfl⟩

/-- C7 witness: `xyz` (no `=`) fails with a message quoting it, and
`ab=1.5` splits at the `=` into address text and a parsed amount. -/
theorem payee_from_str_split_witness :
    (∃ a b, payeeFromStr "xyz" = .error (a ++ "xyz" ++ b)) ∧
    (∃ pre post, "ab=1.5".data = pre ++ '=' :: post ∧ '=' ∉ pre ∧
      ∀ p, payeeFromStr "ab=1.5" = .ok p →
        p.address.data = pre ∧
        hntFromStr (String.mk post) = some p.amount) :=
  ⟨((payee_from_str_split "xyz").1 (by decide)).2,
   (payee_from_str_split "ab=1.5").2 (by decide)⟩

/-- C8: for every preimage argument, an HTLC redemption whose contract
address decodes builds its transaction with the preimage field equal to
the argument's UTF-8 bytes and succeeds — construction and signing
involve no comparison of the preimage's digest against any hashlock (the
run takes no hashlock at all), whatever the preimage's value. -/
theorem htlc_redeem_preimage_no_local_check (addr preText : String)
    (hashFlag commit : Bool) (kp : Keypair) (b : Bytes)
    (hb : b58Decode addr = some b) :
    ∃ t, (htlcRedeemRun ⟨addr, preText, hashFlag, commit⟩ kp).outcome =
        .ok (t, redeemHtlcInEnvelope t,
          if commit then some (apiSubmitTxn (redeemHtlcInEnvelope t))
          else none) ∧
      t.preimage = strUtf8 preText ∧ t.address = b ∧
      t.signature ≠ [] := by
  rw [htlcRedeemRun_resolved ⟨addr, preText, hashFlag, commit⟩ kp b hb]
  refine ⟨redeemHtlcSign kp
    (redeemHtlcBuild ⟨addr, preText, hashFlag, commit⟩ b kp),
    rfl, ?_, ?_, ?_⟩ <;>
  simp [redeemHtlcSign, redeemHtlcBuild, mkSig]

/-- C8 witness: redeeming with contract address text `abc` and preimage
`secret` succeeds, the transaction's preimage being the UTF-8 bytes of
`secret`. -/
theorem htlc_redeem_preimage_no_local_check_witness :
    ∃ t, (htlcRedeemRun ⟨"abc", "secret", false, false⟩
            ⟨[1], [2]⟩).outcome =
        .ok (t, redeemHtlcInEnvelope t,
          if false then some (apiSubmitTxn (redeemHtlcInEnvelope t))
          else none) ∧
      t.preimage = strUtf8 "secret" ∧ t.address = [97, 98, 99] ∧
      t.signature ≠ [] :=
  htlc_redeem_preimage_no_local_check "abc" "secret" false false
    ⟨[1], [2]⟩ [97, 98, 99] (by rfl)

/-- C9: every transaction the four commands construct is canonically
encoded and signed with its fee field equal to 0, and the OUI allocation
additionally with staking_fee equal to 1 (signing only fills the
signature slot, so the signed transaction retains those values). -/
theorem constructed_txn_fee_zero :
    (∀ cmd kp n t env st,
      (payRun cmd kp n).outcome = .ok (t, env, st) → t.fee = 0) ∧
    (∀ cmd kp n a t env st,
      (htlcCreateRun cmd kp n a).outcome = .ok (t, env, st) → t.fee = 0) ∧
    (∀ cmd kp t env st,
      (htlcRedeemRun cmd kp).outcome = .ok (t, env, st) → t.fee = 0) ∧
    (∀ cmd kp sk t env st,
      (ouiCreateRun cmd kp sk).outcome = .ok (t, env, st) →
        t.fee = 0 ∧ t.staking_fee = 1) := by
  refine ⟨?_, ?_, ?_, ?_⟩
  · intro cmd kp n t env st h
    cases hm : mkPayments cmd.payees with
    | error e =>
      unfold payRun at h
      rw [hm] at h
      exact absurd h (by simp)
    | ok ps =>
      rw [payRun_resolved cmd kp n ps hm] at h
      simp at h
      rw [← h.1]
      simp [paymentSign, paymentBuild]
  · intro cmd kp n a t env st h
    cases hp : b58Decode cmd.payee with
    | none =>
      unfold htlcCreateRun at h
      rw [hp] at h
      exact absurd h (by simp)
    | some payeeBin =>
      cases hh : hexDecode cmd.hashlock with
      | none =>
        unfold htlcCreateRun at h
        rw [hp, hh] at h
        exact absurd h (by simp)
      | some hashlockBytes =>
        rw [htlcCreateRun_resolved cmd kp n a payeeBin hashlockBytes hp hh]
          at h
        simp at h
        rw [← h.1]
        simp [createHtlcSign, createHtlcBuild]
  · intro cmd kp t env st h
    cases ha : b58Decode cmd.address with
    | none =>
      unfold htlcRedeemRun at h
      rw [ha] at h
      exact absurd h (by simp)
    | some addr =>
      rw [htlcRedeemRun_resolved cmd kp addr ha] at h
      simp at h
      rw [← h.1]
      simp [redeemHtlcSign, redeemHtlcBuild]
  · intro cmd kp sk t env st h
    cases hp : get_payer sk cmd.payer with
    | error e =>
      unfold ouiCreateRun at h
      rw [hp] at h
      exact absurd h (by simp)
    | ok payer =>
      cases hf : base64Decode cmd.filter with
      | none =>
        unfold ouiCreateRun at h
        rw [hp, hf] at h
        exact absurd h (by simp)
      | some f =>
        rw [ouiCreateRun_resolved cmd kp sk payer f hp hf] at h
        simp at h
        rw [← h.1]
        simp [ouiSign, ouiBuild]

/-- C9 witness: concrete runs of all four commands produce transactions
with fee 0 (staking_fee 1 for the OUI allocation). -/
theorem constructed_txn_fee_zero_witness :
    (paymentSign ⟨[1], [2]⟩ (paymentBuild [] ⟨[1], [2]⟩ 0)).fee = 0 ∧
    (createHtlcSign ⟨[1], [2]⟩
      (createHtlcBuild ⟨"abc", ⟨1⟩, "00", 0, false⟩ [97, 98, 99] [0]
        ⟨[1], [2]⟩ 0 [3])).fee = 0 ∧
    (redeemHtlcSign ⟨[1], [2]⟩
      (redeemHtlcBuild ⟨"abc", "secret", false, false⟩ [97, 98, 99]
        ⟨[1], [2]⟩)).fee = 0 ∧
    (ouiSign ⟨[1], [2]⟩ .Owner
      (ouiBuild ⟨[], "", 1, 8, none, false⟩ ⟨[1], [2]⟩ none [])).fee = 0 ∧
    (ouiSign ⟨[1], [2]⟩ .Owner
      (ouiBuild ⟨[], "", 1, 8, none, false⟩ ⟨[1], [2]⟩ none
        [])).staking_fee = 1 := by
  have h := constructed_txn_fee_zero
  refine ⟨?_, ?_, ?_, ?_, ?_⟩
  · exact h.1 ⟨[], false⟩ ⟨[1], [2]⟩ 0 _ _ _ (by rfl)
  · exact h.2.1 ⟨"abc", ⟨1⟩, "00", 0, false⟩ ⟨[1], [2]⟩ 0 [3] _ _ _ (by rfl)
  · exact h.2.2.1 ⟨"abc", "secret", false, false⟩ ⟨[1], [2]⟩ _ _ _ (by rfl)
  · exact (h.2.2.2 ⟨[], "", 1, 8, none, false⟩ ⟨[1], [2]⟩ [9] _ _ _
      (by rfl)).1
  · exact (h.2.2.2 ⟨[], "", 1, 8, none, false⟩ ⟨[1], [2]⟩ [9] _ _ _
      (by rfl)).2

/-- A run made no submission call and reported no submission status. -/
def runQuiet {τ : Type} (r : RunResult τ) : Prop :=
  r.submits = [] ∧
  ∀ t env st, r.outcome = .ok (t, env, st) → st = none

/-- C10: for each of the four commands, a run with the commit flag unset
makes no submission call to the ledger API and reports a `None`
submission status; conversely, any run that did submit had the commit
flag set. -/
theorem commit_flag_gates_submission :
    (∀ cmd kp n, cmd.commit = false → runQuiet (payRun cmd kp n)) ∧
    (∀ cmd kp n, (payRun cmd kp n).submits ≠ [] → cmd.commit = true) ∧
    (∀ cmd kp n a, cmd.commit = false →
      runQuiet (htlcCreateRun cmd kp n a)) ∧
    (∀ cmd kp n a, (htlcCreateRun cmd kp n a).submits ≠ [] →
      cmd.commit = true) ∧
    (∀ cmd kp, cmd.commit = false → runQuiet (htlcRedeemRun cmd kp)) ∧
    (∀ cmd kp, (htlcRedeemRun cmd kp).submits ≠ [] → cmd.commit = true) ∧
    (∀ cmd kp sk, cmd.commit = false → runQuiet (ouiCreateRun cmd kp sk)) ∧
    (∀ cmd kp sk, (ouiCreateRun cmd kp sk).submits ≠ [] →
      cmd.commit = true) := by
  refine ⟨?_, ?_, ?_, ?_, ?_, ?_, ?_, ?_⟩
  · intro cmd kp n hc
    cases hm : mkPayments cmd.payees with
    | error e =>
      unfold payRun
      rw [hm]
      exact ⟨rfl, by simp⟩
    | ok ps =>
      rw [payRun_resolved cmd kp n ps hm]
      refine ⟨by simp [hc], ?_⟩
      intro t env st h
      simp [hc] at h
      exact h.2.2.symm
  · intro cmd kp n hs
    by_contra hc
    rw [Bool.not_eq_true] at hc
    cases hm : mkPayments cmd.payees with
    | error e =>
      unfold payRun at hs
      rw [hm] at hs
      exact hs rfl
    | ok ps =>
      rw [payRun_resolved cmd kp n ps hm] at hs
      simp [hc] at hs
  · intro cmd kp n a hc
    cases hp : b58Decode cmd.payee with
    | none =>
      unfold htlcCreateRun
      rw [hp]
      exact ⟨rfl, by simp⟩
    | some payeeBin =>
      cases hh : hexDecode cmd.hashlock with
      | none =>
        unfold htlcCreateRun
        rw [hp, hh]
        exact ⟨rfl, by simp⟩
      | some hashlockBytes =>
        rw [htlcCreateRun_resolved cmd kp n a payeeBin hashlockBytes hp hh]
        refine ⟨by simp [hc], ?_⟩
        intro t env st h
        simp [hc] at h
        exact h.2.2.symm
  · intro cmd kp n a hs
    by_contra hc
    rw [Bool.not_eq_true] at hc
    cases hp : b58Decode cmd.payee with
    | none =>
      unfold htlcCreateRun at hs
      rw [hp] at hs
      exact hs rfl
    | some payeeBin =>
      cases hh : hexDecode cmd.hashlock with
      | none =>
        unfold htlcCreateRun at hs
        rw [hp, hh] at hs
        exact hs rfl
      | some hashlockBytes =>
        rw [htlcCreateRun_resolved cmd kp n a payeeBin hashlockBytes hp hh]
          at hs
        simp [hc] at hs
  · intro cmd kp hc
    cases ha : b58Decode cmd.address with
    | none =>
      unfold htlcRedeemRun
      rw [ha]
      exact ⟨rfl, by simp⟩
    | some addr =>
      rw [htlcRedeemRun_resolved cmd kp addr ha]
      refine ⟨by simp [hc], ?_⟩
      intro t env st h
      simp [hc] at h
      exact h.2.2.symm
  · intro cmd kp hs
    by_contra hc
    rw [Bool.not_eq_true] at hc
    cases ha : b58Decode cmd.address with
    | none =>
      unfold htlcRedeemRun at hs
      rw [ha] at hs
      exact hs rfl
    | some addr =>
      rw [htlcRedeemRun_resolved cmd kp addr ha] at hs
      simp [hc] at hs
  · intro cmd kp sk hc
    cases hp : get_payer sk cmd.payer with
    | error e =>
      unfold ouiCreateRun
      rw [hp]
      exact ⟨rfl, by simp⟩
    | ok payer =>
      cases hf : base64Decode cmd.filter with
      | none =>
        unfold ouiCreateRun
        rw [hp, hf]
        exact ⟨rfl, by simp⟩
      | some f =>
        rw [ouiCreateRun_resolved cmd kp sk payer f hp hf]
        refine ⟨by simp [hc], ?_⟩
        intro t env st h
        simp [hc] at h
        exact h.2.2.symm
  · intro cmd kp sk hs
    by_contra hc
    rw [Bool.not_eq_true] at hc
    cases hp : get_payer sk cmd.payer with
    | error e =>
      unfold ouiCreateRun at hs
      rw [hp] at hs
      exact hs rfl
    | ok payer =>
      cases hf : base64Decode cmd.filter with
      | none =>
        unfold ouiCreateRun at hs
        rw [hp, hf] at hs
        exact hs rfl
      | some f =>
        rw [ouiCreateRun_resolved cmd kp sk payer f hp hf] at hs
        simp [hc] at hs

/-- C10 witness: concrete uncommitted runs of all four commands submit
nothing and report no status. -/
theorem commit_flag_gates_submission_witness :
    runQuiet (payRun ⟨[], false⟩ ⟨[1], [2]⟩ 0) ∧
    runQuiet (htlcCreateRun ⟨"abc", ⟨1⟩, "00", 0, false⟩ ⟨[1], [2]⟩ 0 [3]) ∧
    runQuiet (htlcRedeemRun ⟨"abc", "secret", false, false⟩ ⟨[1], [2]⟩) ∧
    runQuiet (ouiCreateRun ⟨[], "", 1, 8, none, false⟩ ⟨[1], [2]⟩ [9]) :=
  ⟨commit_flag_gates_submission.1 ⟨[], false⟩ ⟨[1], [2]⟩ 0 rfl,
   commit_flag_gates_submission.2.2.1 ⟨"abc", ⟨1⟩, "00", 0, false⟩
     ⟨[1], [2]⟩ 0 [3] rfl,
   commit_flag_gates_submission.2.2.2.2.1
     ⟨"abc", "secret", false, false⟩ ⟨[1], [2]⟩ rfl,
   commit_flag_gates_submission.2.2.2.2.2.2.1
     ⟨[], "", 1, 8, none, false⟩ ⟨[1], [2]⟩ [9] rfl⟩

end HeliumWallet
